import Mathlib

/-!
# Verification of `xfcesetbg-rs` (`src/main.rs`)

A shallow embedding of the core logic of the `xfcesetbg` utility.  The
program talks to the xfconf configuration service over D-Bus, reads list
files from the filesystem and draws random numbers; those external effects
are passed in explicitly:

* the filesystem existence probe (`metadata(..).is_ok()`) becomes a
  function `ex : String → Bool`;
* the random generator (`SmallRng::gen_range(0, lsize)`) becomes a list of
  draws, each taken modulo the current population size (every sequence of
  in-range draws of the real generator is represented by some such list);
* each D-Bus call result (`call_method`, `set_background`, ...) becomes an
  `Except XFConfError _` value or a result-valued function supplied as a
  parameter;
* variant payloads (`Variant<Box<RefArg>>`) become the inductive `DVal`.

Pure logic (string splitting, regex scraping, sorting, slot pairing) is
translated function-for-function from the Rust source.
-/

deriving instance DecidableEq for Except

namespace XfceSetBg

/-- Embedding of the `XFConfError` enum of `main.rs`.  Payloads carrying
foreign error values (`dbus::Error`, `regex::Error`, `io::Error`) are
dropped; only the variant tag matters to the control flow. -/
inductive XFConfError where
  /-- String error from `dbus::Message` functions. -/
  | CallError (s : String)
  /-- Wrapped error from `dbus::Connection` functions. -/
  | DBusError
  /-- Wrapped regex error. -/
  | RegexError
  /-- Wrapped error from file operations. -/
  | IOError
  /-- Could not pull out the data of expected type from a response variant. -/
  | BadType
  /-- `Message::get()` gave a `None`. -/
  | NoData
  /-- Could not pick an image. -/
  | NoImage
  /-- Could not figure out the monitors and workspace info. -/
  | NoDesktopInfo
deriving DecidableEq, Repr

/-- Embedding of a D-Bus variant payload (`Variant<Box<RefArg>>`): only the
types this program ever reads.  `cast::<bool>` is a strict downcast and
succeeds exactly on `VBool`; `as_i64` is the lenient conversion of
`RefArg` ("Works for: Boolean, Byte, Int16, UInt16, Int32, UInt32,
Int64"), so it succeeds on `VInt64` and on `VBool` (read as 0/1);
`as_str` succeeds exactly on `VString`.  `VInt64` stands for all the
integer wire types and `VOther` for every remaining wire type. -/
inductive DVal where
  | VBool (b : Bool)
  | VInt64 (n : Int)
  | VString (s : String)
  | VOther
deriving DecidableEq, Repr

/-- `cast::<bool>(&v.0)` from dbus-rs: exact type downcast to `bool`. -/
def castBool : DVal → Option Bool
  | .VBool b => some b
  | _ => none

/-- `v.as_i64()` from dbus-rs: lenient conversion that succeeds on the
integer-typed arguments and on Boolean (0/1), and fails on strings and
the remaining wire types. -/
def asI64 : DVal → Option Int
  | .VInt64 n => some n
  | .VBool b => some (if b then 1 else 0)
  | _ => none

/-! ## String utilities

Rust standard-library string operations used by the program, modelled as
structurally recursive functions on `List Char` so that the kernel can
evaluate them on concrete inputs. -/

/-- Split a character list at every occurrence of `sep`, keeping empty
segments — the semantics of Rust `str::split(sep)`, which always yields at
least one (possibly empty) segment. -/
def splitCh (sep : Char) : List Char → List (List Char)
  | [] => [[]]
  | c :: rest =>
      let ls := splitCh sep rest
      if c = sep then [] :: ls
      else
        match ls with
        | [] => [[c]]
        | l :: ls' => (c :: l) :: ls'

/-- Rust `str::lines()`: split on `'\n'`, with the final line ending
optional (a trailing empty segment produced by a final newline is not a
line).  `\r\n` endings leave a trailing `'\r'` on the segment, which the
subsequent `str::trim` in `get_image_names` removes, so that difference is
immaterial here. -/
def rustLines (s : String) : List String :=
  let parts := (splitCh '\n' s.data).map (fun l => String.mk l)
  if parts.getLast? = some "" then parts.dropLast else parts

/-- The whitespace predicate of `str::trim` (ASCII fragment; the program
only ever meets ASCII whitespace). -/
def isWs (c : Char) : Bool := c = ' ' || c = '\t' || c = '\r' || c = '\n'

/-- Rust `str::trim`: drop leading and trailing whitespace. -/
def trimChars (l : List Char) : List Char :=
  ((l.dropWhile isWs).reverse.dropWhile isWs).reverse

/-- `str::trim` on `String`. -/
def rustTrim (s : String) : String := String.mk (trimChars s.data)

/-- Rust `str::starts_with("#")`. -/
def startsHash (s : String) : Bool :=
  match s.data with
  | '#' :: _ => true
  | _ => false

/-- One decimal digit as a character. -/
def digitChar (n : Nat) : Char := Char.ofNat (48 + n % 10)

/-- Auxiliary decimal printer, structurally recursive on a fuel argument
(`fuel ≥ n` suffices since `n / 10 < n` for `n > 0`). -/
def natToDecAux : Nat → Nat → List Char
  | 0, _ => []
  | _ + 1, 0 => []
  | fuel + 1, n => natToDecAux fuel (n / 10) ++ [digitChar n]

/-- Rust `format!("{}", x)` for an unsigned integer: decimal notation. -/
def natToDec (n : Nat) : String :=
  if n = 0 then "0" else String.mk (natToDecAux n n)

/-- Byte-lexicographic order on strings as lists of characters, the order
used by Rust's `Vec::<String>::sort()` (UTF-8 byte order coincides with
code-point order). -/
def lexLe : List Char → List Char → Bool
  | [], _ => true
  | _ :: _, [] => false
  | a :: as, b :: bs => if a = b then lexLe as bs else decide (a.toNat < b.toNat)

/-- The sort relation on `String` used for monitor names and image paths. -/
def strLe (s t : String) : Prop := lexLe s.data t.data = true

instance : DecidableRel strLe := fun s t => by unfold strLe; infer_instance

/-- Rust `Vec::dedup()`: remove *consecutive* duplicate elements (on a
sorted vector this removes all duplicates). -/
def dedupAdj {α : Type} [DecidableEq α] : List α → List α
  | [] => []
  | [a] => [a]
  | a :: b :: t => if a = b then dedupAdj (b :: t) else a :: dedupAdj (b :: t)

/-! ## Image List Loader (`get_image_names`)

```rust
let mut contents = String::new();
File::open(_list)?.read_to_string(&mut contents)?;
Ok(contents.lines().map(str::trim).filter(|x| !x.starts_with("#"))
   .map(str::to_string).collect())
```

The `File::open`/`read_to_string` effect is supplied by the caller as the
already-read text (a read failure is an `IOError` handled at the call
sites, see `set_list`). -/

/-- The pure core of `get_image_names`: lines, trimmed, with comment lines
(trimmed form starting with `#`) dropped. -/
def get_image_names (contents : String) : List String :=
  ((rustLines contents).map rustTrim).filter (fun x => !startsHash x)

/-! ## Image Selector (`pick_image`)

```rust
let mut imgs = image_names.iter().collect::<Vec<&String>>();
imgs.sort();
imgs.dedup();
let mut lsize = imgs.len();
while lsize > 0 {
    let picked_idx = _rng.gen_range(0, lsize);
    match metadata(&imgs[picked_idx]) {
        Err(_) => { imgs.remove(picked_idx); lsize = imgs.len(); },
        Ok(_)  => { return Ok(imgs[picked_idx].to_string()); }
    }
}
Err(XFConfError::NoImage)
```

The loop removes one element per failed probe, so it runs at most
`imgs.len()` iterations: that length is the fuel of the structural
recursion below (the invariant `fuel = imgs.length` is maintained by every
lemma about it).  Each `gen_range(0, lsize)` draw is the head of `draws`
reduced modulo the population size. -/

/-- The canonical candidate pool: `sort(); dedup();` of the input.  For
strings, any correct sort produces this exact list, since a sorted
permutation of a multiset is unique as a list. -/
def canonPool (image_names : List String) : List String :=
  dedupAdj (List.insertionSort strLe image_names)

/-- The selection loop of `pick_image`. -/
def pickLoop (ex : String → Bool) : Nat → List String → List Nat → Except XFConfError String
  | 0, _, _ => .error .NoImage
  | _ + 1, [], _ => .error .NoImage
  | fuel + 1, imgs, draws =>
      let idx := draws.headD 0 % imgs.length
      let c := imgs.getD idx ""
      if ex c then .ok c
      else pickLoop ex fuel (imgs.eraseIdx idx) draws.tail

/-- `pick_image`: sort and deduplicate the candidates, then repeatedly draw
a random remaining candidate, dropping it permanently if the filesystem
probe fails. -/
def pick_image (ex : String → Bool) (draws : List Nat) (image_names : List String) :
    Except XFConfError String :=
  pickLoop ex (canonPool image_names).length (canonPool image_names) draws

/-- Instrumented selection loop: additionally returns the list of
candidates probed with `metadata`, in probe order. -/
def pickLoopT (ex : String → Bool) :
    Nat → List String → List Nat → List String × Except XFConfError String
  | 0, _, _ => ([], .error .NoImage)
  | _ + 1, [], _ => ([], .error .NoImage)
  | fuel + 1, imgs, draws =>
      let idx := draws.headD 0 % imgs.length
      let c := imgs.getD idx ""
      if ex c then ([c], .ok c)
      else
        let r := pickLoopT ex fuel (imgs.eraseIdx idx) draws.tail
        (c :: r.1, r.2)

/-- The candidates probed by a `pick_image` run. -/
def pickProbes (ex : String → Bool) (draws : List Nat) (image_names : List String) :
    List String :=
  (pickLoopT ex (canonPool image_names).length (canonPool image_names) draws).1

/-! ## Topology Resolver (`refresh_monitors_and_workspaces`)

```rust
let _mon_re = Regex::new(r"/backdrop/screen0/monitor(.*)/workspace(.*)/color-style")?;
...
let mut mons_set: Vec<String> = prop_keys.iter().map(|fld| _mon_re.captures(fld))
    .filter(Option::is_some).map(Option::unwrap)
    .filter(|c| c.len() > 1)
    .map(|c| c.get(1).unwrap().as_str().to_string()).collect();
mons_set.sort();
mons_set.dedup();
if mons_set.len() <= 0 { return Err(XFConfError::NoDesktopInfo); }
let workspaces_re = Regex::new(&format!(
    "/backdrop/screen0/monitor{monitor}/workspace.*/last-image", ...))?;
let workspace_count = prop_keys.iter().filter(|fld| workspaces_re.is_match(fld)).count();
```

The regex engine is embedded for these two concrete patterns: an
*unanchored* search with leftmost match start and greedy `(.*)` groups,
where `.` matches any character except `'\n'`.  `Captures::len()` is the
fixed group count (3) of the monitor pattern, so the `c.len() > 1` filter
never drops a match.  The interpolated `{monitor}` of the second pattern
is treated as a literal, which is faithful for monitor identifiers free of
regex metacharacters (the identifiers xfconf produces).  The property keys
come out of a D-Bus dict whose iteration order is arbitrary — the
determinism theorem quantifies over all permutations. -/

/-- Literal fragment `/backdrop/screen0/monitor` of the monitor pattern. -/
def monPat : List Char := "/backdrop/screen0/monitor".data

/-- Literal fragment `/workspace`. -/
def wsPat : List Char := "/workspace".data

/-- Literal fragment `/color-style`. -/
def csPat : List Char := "/color-style".data

/-- Literal fragment `/last-image`. -/
def liPat : List Char := "/last-image".data

/-- Does `pat` occur in the text at some position whose preceding
characters are all non-newline?  (I.e. can `(.*)` followed by the literal
`pat` match a prefix of the text.) -/
def hasPatAfter (pat : List Char) : List Char → Bool
  | [] => pat.isPrefixOf []
  | c :: rest => pat.isPrefixOf (c :: rest) || (!(c = '\n') && hasPatAfter pat rest)

/-- Can the first `(.*)` group end after `p` characters of `rest`, i.e.
`rest = M ++ "/workspace" ++ W ++ "/color-style" ++ _` with `|M| = p` and
`M`, `W` newline-free? -/
def validCapAt (rest : List Char) (p : Nat) : Bool :=
  wsPat.isPrefixOf (rest.drop p) && (rest.take p).all (fun c => !(c = '\n')) &&
    hasPatAfter csPat (rest.drop (p + wsPat.length))

/-- The greedy first capture group against `rest`: the *longest* feasible
`M` (Rust regex `(.*)` is greedy). -/
def capAt (rest : List Char) : Option (List Char) :=
  (((List.range (rest.length + 1)).filter (validCapAt rest)).getLast?).map
    (fun p => rest.take p)

/-- `_mon_re.captures(key).map(|c| c.get(1))`: unanchored search with
leftmost match start, returning the greedy first capture group. -/
def capMonitor (key : String) : Option String :=
  (((List.range (key.data.length + 1)).filterMap (fun i =>
      if monPat.isPrefixOf (key.data.drop i) then capAt (key.data.drop (i + monPat.length))
      else none)).head?).map (fun m => String.mk m)

/-- `workspaces_re.is_match(key)` for the interpolated pattern
`/backdrop/screen0/monitor<monitor>/workspace.*/last-image`. -/
def wsCountMatch (monitor : String) (key : String) : Bool :=
  (List.range (key.data.length + 1)).any (fun i =>
    (monPat ++ monitor.data ++ wsPat).isPrefixOf (key.data.drop i) &&
      hasPatAfter liPat (key.data.drop (i + (monPat ++ monitor.data ++ wsPat).length)))

/-- The sorted, deduplicated monitor sequence scraped from the property
keys. -/
def monsSetOf (prop_keys : List String) : List String :=
  dedupAdj (List.insertionSort strLe (prop_keys.filterMap capMonitor))

/-- `refresh_monitors_and_workspaces`, as a function of the property keys
returned by `GetAllProperties` (the transport call itself is upstream):
yields the monitor sequence and the workspace count, or `NoDesktopInfo`
when no monitor was scraped. -/
def refresh_monitors_and_workspaces (prop_keys : List String) :
    Except XFConfError (List String × Nat) :=
  let mons_set := monsSetOf prop_keys
  if mons_set.length ≤ 0 then .error .NoDesktopInfo
  else .ok (mons_set, (prop_keys.filter (wsCountMatch (mons_set.headD ""))).length)

/-! ## Single-workspace mode (`refresh_single_workspace_info`,
`set_single_workspace_info`, `do_set_backdrop_mode`) -/

/-- The `single_mode` / `single_workspace` fields of `XFCEDesktop`. -/
structure SingleInfo where
  single_mode : Bool
  single_workspace : Nat
deriving DecidableEq, Repr

/-- `refresh_single_workspace_info`.  The two arguments are the results of
the two `GetProperty` calls: `.error _` when the call itself failed (e.g.
the property is absent and xfconf answers with an error reply),
`.ok none` when the reply message carried no argument (`get1` = `None`),
`.ok (some v)` when it carried variant payload `v`.

```rust
if m_sws_mode.is_err() || m_sws_num.is_err() {
    self.single_mode = true; self.single_workspace = 0;
} else {
    let v_mode = m_sws_mode?.get1().ok_or(XFConfError::NoData)?;
    let v_num  = m_sws_num?.get1().ok_or(XFConfError::NoData)?;
    let mode = cast::<bool>(&v_mode.0).ok_or(XFConfError::NoData)?;
    let num  = v_num.as_i64().ok_or(XFConfError::NoData)?;
    self.single_mode = *mode;
    self.single_workspace = if num < 0 { 0 } else { num as u64 };
}
Ok(())
``` -/
def refresh_single_workspace_info (m_sws_mode m_sws_num : Except XFConfError (Option DVal)) :
    Except XFConfError SingleInfo :=
  match m_sws_mode, m_sws_num with
  | .ok mVal, .ok nVal =>
      match mVal with
      | none => .error .NoData
      | some v_mode =>
          match nVal with
          | none => .error .NoData
          | some v_num =>
              match castBool v_mode with
              | none => .error .NoData
              | some mode =>
                  match asI64 v_num with
                  | none => .error .NoData
                  | some num => .ok ⟨mode, if num < 0 then 0 else num.toNat⟩
  | _, _ => .ok ⟨true, 0⟩

/-- xfconf property path of the saved list file. -/
def XFCONF_BACKDROP_LIST_PATH : String := "/backdrop/screen0/monitor0/image-path"

/-- xfconf property path of the single-workspace-mode boolean. -/
def XFCONF_SINGLE_WORKSPACE_MODE : String := "/backdrop/single-workspace-mode"

/-- xfconf property path of the single-workspace-number integer. -/
def XFCONF_SINGLE_WORKSPACE_NUMBER : String := "/backdrop/single-workspace-number"

/-- `set_single_workspace_info`: issue a `SetProperty` for the mode flag,
then — only when a workspace number is supplied — one for the number.
Returns the list of issued writes `(property path, value)` together with
the overall result.  `modeWriteRes` / `numWriteRes` are the transport
results of the two calls. -/
def set_single_workspace_info (modeWriteRes numWriteRes : Except XFConfError Unit)
    (mode : Bool) (workspace_number : Option Int) :
    List (String × DVal) × Except XFConfError Unit :=
  match modeWriteRes with
  | .error e => ([(XFCONF_SINGLE_WORKSPACE_MODE, .VBool mode)], .error e)
  | .ok _ =>
      match workspace_number with
      | none => ([(XFCONF_SINGLE_WORKSPACE_MODE, .VBool mode)], .ok ())
      | some n =>
          ([(XFCONF_SINGLE_WORKSPACE_MODE, .VBool mode),
            (XFCONF_SINGLE_WORKSPACE_NUMBER, .VInt64 n)], numWriteRes)

/-- The property-setting part of `do_set_backdrop_mode` (the optional
follow-up rotation is modelled separately, see `rotate_from_saved`):
an explicit workspace number outside `[0, workspace_count)` is replaced by
`None` after a diagnostic, so only the mode flag is written.

```rust
Some(n) => xfconf.set_single_workspace_info(mode,
    if (n < 0) || (n >= (xfconf.workspace_count as i64)) { ... None } else { Some(n) }),
None => xfconf.set_single_workspace_info(mode, None),
``` -/
def do_set_backdrop_mode (modeWriteRes numWriteRes : Except XFConfError Unit)
    (workspace_count : Nat) (mode : Bool) (workspace_num : Option Int) :
    List (String × DVal) × Except XFConfError Unit :=
  match workspace_num with
  | some n =>
      set_single_workspace_info modeWriteRes numWriteRes mode
        (if n < 0 ∨ (workspace_count : Int) ≤ n then none else some n)
  | none => set_single_workspace_info modeWriteRes numWriteRes mode none

/-! ## Slot Assigner (`do_setimg`, `workspace_names`) -/

/-- `workspace_names`: `(0..workspace_count).map(|x| format!("{}", x))`. -/
def workspace_names (workspace_count : Nat) : List String :=
  (List.range workspace_count).map natToDec

/-- The canonical monitor-major, workspace-minor slot sequence
(`all_workspaces` in `do_setimg`). -/
def all_workspaces (monitors : List String) (workspace_count : Nat) :
    List (String × String) :=
  monitors.flatMap (fun x => (workspace_names workspace_count).map (fun y => (x, y)))

/-- Rust `imgfiles_collated.split(":")`. -/
def splitColon (s : String) : List String :=
  (splitCh ':' s.data).map (fun l => String.mk l)

/-- The `(image, slot)` pairs computed by `do_setimg` — exactly the
`set_background` writes it attempts (continue-on-error, so all of them are
attempted).  With `rep` (the `-r` flag) the token iterator is `cycle()`d
before zipping, so slot `i` meets token `i mod len(tokens)`; `split(":")`
never yields an empty token list, so the cycle is non-degenerate.

```rust
let imgpairs = if repeat {
    imgfiles_collated.split(":").cycle().zip(all_workspaces)
        .filter(|&(i,_)| !i.is_empty()).collect()
} else {
    imgfiles_collated.split(":").zip(all_workspaces)
        .filter(|&(i,_)| !i.is_empty()).collect()
};
``` -/
def do_setimg_pairs (monitors : List String) (workspace_count : Nat)
    (imgfiles_collated : String) (rep : Bool) : List (String × String × String) :=
  let slots := all_workspaces monitors workspace_count
  let toks := splitColon imgfiles_collated
  if rep then
    (slots.enum.map (fun p => (toks.getD (p.1 % toks.length) "", p.2))).filter
      (fun p => !(p.1 == ""))
  else
    (toks.zip slots).filter (fun p => !(p.1 == ""))

/-! ## Rotation Orchestrator (`rotate_background`, `rotate_from_saved`)

```rust
fn rotate_background(&self, _workspace: &str, image_list: &Vec<String>) -> Result<(), XFConfError> {
    for m in &self.monitors {
        let img = self.pick_image(image_list)?;
        ...
        self.set_background(m.as_str(), _workspace, &img)?;
    }
    Ok(())
}
```

Each loop iteration builds a fresh `SmallRng`, so the draws of the `k`-th
`pick_image` call are an independent list `rngs k`.  `setbg` is the
transport result of `set_background` as a function of the slot and image.
Besides the `Result`, the embedding returns the *trace* of monitors for
which the iteration body was entered (the attempted slots), which is what
the continue-on-error claim is about. -/

/-- The body of `rotate_background`'s loop over the remaining monitors;
`k` counts the `pick_image` calls already made. -/
def rotate_backgroundAux (ex : String → Bool) (rngs : Nat → List Nat)
    (setbg : String → String → String → Except XFConfError Unit)
    (wsp : String) (image_list : List String) :
    List String → Nat → List String × Except XFConfError Unit
  | [], _ => ([], .ok ())
  | m :: rest, k =>
      match pick_image ex (rngs k) image_list with
      | .error e => ([m], .error e)
      | .ok img =>
          match setbg m wsp img with
          | .error e => ([m], .error e)
          | .ok _ =>
              let r := rotate_backgroundAux ex rngs setbg wsp image_list rest (k + 1)
              (m :: r.1, r.2)

/-- `rotate_background`: trace of attempted monitors and overall result. -/
def rotate_background (ex : String → Bool) (rngs : Nat → List Nat)
    (setbg : String → String → String → Except XFConfError Unit)
    (monitors : List String) (wsp : String) (image_list : List String) :
    List String × Except XFConfError Unit :=
  rotate_backgroundAux ex rngs setbg wsp image_list monitors 0

/-- The outcome of one slot of `rotate_background`'s loop in isolation:
the selector result of the `k`-th `pick_image` call and, on success, the
`set_background` transport result for monitor `m`.  Used to state which
slot fails first. -/
def slotResM (ex : String → Bool) (rngs : Nat → List Nat)
    (setbg : String → String → String → Except XFConfError Unit)
    (wsp : String) (pool : List String) (m : String) (k : Nat) :
    Except XFConfError Unit :=
  match pick_image ex (rngs k) pool with
  | .error e => .error e
  | .ok img => setbg m wsp img

/-- The workspace loop of `rotate_from_saved` (`?` on each
`rotate_background` call); `i` indexes the workspace iteration so each one
gets its own draw supply `rngss i`. -/
def rotate_from_savedAux (ex : String → Bool) (rngss : Nat → Nat → List Nat)
    (setbg : String → String → String → Except XFConfError Unit)
    (monitors : List String) (image_list : List String) :
    List String → Nat → List (String × String) × Except XFConfError Unit
  | [], _ => ([], .ok ())
  | w :: ws, i =>
      let r := rotate_backgroundAux ex (rngss i) setbg w image_list monitors 0
      let tr := r.1.map (fun m => (m, w))
      match r.2 with
      | .error e => (tr, .error e)
      | .ok _ =>
          let r2 := rotate_from_savedAux ex rngss setbg monitors image_list ws (i + 1)
          (tr ++ r2.1, r2.2)

/-- `rotate_from_saved`, downstream of the list loading (`get_list` /
`get_image_names`, whose failures abort before any slot is attempted):
rotate one workspace in single mode, every workspace otherwise.  Returns
the trace of attempted `(monitor, workspace)` slots and the result. -/
def rotate_from_saved (ex : String → Bool) (rngss : Nat → Nat → List Nat)
    (setbg : String → String → String → Except XFConfError Unit)
    (single_mode : Bool) (single_workspace : Nat)
    (monitors : List String) (workspace_count : Nat) (image_list : List String) :
    List (String × String) × Except XFConfError Unit :=
  if single_mode then
    rotate_from_savedAux ex rngss setbg monitors image_list [natToDec single_workspace] 0
  else
    rotate_from_savedAux ex rngss setbg monitors image_list (workspace_names workspace_count) 0

/-! ## `set_list`

```rust
fn set_list(&self, _list: &str) -> Result<(), XFConfError> {
    let _list_attr = metadata(_list)?;
    let image_list = self.get_image_names(_list)?;
    self.pick_image(&image_list)?;
    let list_v = Variant(_list);
    self.call_method(self.mk_call("SetProperty")?
        .append3(XFCONF_DESKTOP_CHANNEL, XFCONF_BACKDROP_LIST_PATH, list_v))?;
    Ok(())
}
```

`md_ok` is the success of `metadata(_list)`, `contents` the result of the
read in `get_image_names`, `wres` the transport result of the final
`SetProperty`.  The first component of the result is the list of property
writes issued. -/

/-- `set_list`: validate (file stats, readability, at least one existing
image) before issuing the single list-path write. -/
def set_list (md_ok : Bool) (contents : Except XFConfError String)
    (ex : String → Bool) (draws : List Nat)
    (wres : Except XFConfError Unit) (lst : String) :
    List (String × String) × Except XFConfError Unit :=
  if md_ok then
    match contents with
    | .error e => ([], .error e)
    | .ok text =>
        match pick_image ex draws (get_image_names text) with
        | .error e => ([], .error e)
        | .ok _ => ([(XFCONF_BACKDROP_LIST_PATH, lst)], wres)
  else ([], .error .IOError)

/-! ### Order facts for the byte-lexicographic sort -/

theorem char_toNat_inj {a b : Char} (h : a.toNat = b.toNat) : a = b := by
  have h2 := congrArg Char.ofNat h
  simpa [Char.ofNat_toNat] using h2

theorem lexLe_total : ∀ l₁ l₂ : List Char, lexLe l₁ l₂ = true ∨ lexLe l₂ l₁ = true
  | [], _ => Or.inl rfl
  | _ :: _, [] => Or.inr rfl
  | a :: as, b :: bs => by
      by_cases hab : a = b
      · subst hab
        rcases lexLe_total as bs with h | h
        · exact Or.inl (by simpa [lexLe] using h)
        · exact Or.inr (by simpa [lexLe] using h)
      · have hba : b ≠ a := fun h => hab h.symm
        rcases Nat.lt_trichotomy a.toNat b.toNat with h | h | h
        · exact Or.inl (by simp [lexLe, hab, h])
        · exact absurd (char_toNat_inj h) hab
        · exact Or.inr (by simp [lexLe, hba, h])

theorem lexLe_trans :
    ∀ l₁ l₂ l₃ : List Char, lexLe l₁ l₂ = true → lexLe l₂ l₃ = true → lexLe l₁ l₃ = true
  | [], _, _, _, _ => rfl
  | _ :: _, [], _, h₁, _ => by simp [lexLe] at h₁
  | _ :: _, _ :: _, [], _, h₂ => by simp [lexLe] at h₂
  | a :: as, b :: bs, c :: cs, h₁, h₂ => by
      by_cases hab : a = b <;> by_cases hbc : b = c
      · subst hab; subst hbc
        simp only [lexLe, if_pos rfl] at h₁ h₂ ⊢
        exact lexLe_trans as bs cs h₁ h₂
      · subst hab
        simp only [lexLe, if_pos rfl, if_neg hbc] at h₂ ⊢
        exact h₂
      · subst hbc
        simp only [lexLe, if_pos rfl, if_neg hab] at h₁ ⊢
        exact h₁
      · simp only [lexLe, if_neg hab, if_neg hbc, decide_eq_true_eq] at h₁ h₂
        have hac : a.toNat < c.toNat := Nat.lt_trans h₁ h₂
        have : a ≠ c := fun h => Nat.lt_irrefl _ (h ▸ hac)
        simp [lexLe, this, hac]

theorem lexLe_antisymm :
    ∀ l₁ l₂ : List Char, lexLe l₁ l₂ = true → lexLe l₂ l₁ = true → l₁ = l₂
  | [], [], _, _ => rfl
  | [], _ :: _, _, h₂ => by simp [lexLe] at h₂
  | _ :: _, [], h₁, _ => by simp [lexLe] at h₁
  | a :: as, b :: bs, h₁, h₂ => by
      by_cases hab : a = b
      · subst hab
        simp only [lexLe, if_pos rfl] at h₁ h₂
        rw [lexLe_antisymm as bs h₁ h₂]
      · have hba : b ≠ a := fun h => hab h.symm
        simp only [lexLe, if_neg hab, if_neg hba, decide_eq_true_eq] at h₁ h₂
        exact absurd (Nat.lt_trans h₁ h₂) (Nat.lt_irrefl _)

instance : IsTotal String strLe := ⟨fun s t => lexLe_total s.data t.data⟩

instance : IsTrans String strLe :=
  ⟨fun a b c h₁ h₂ => lexLe_trans a.data b.data c.data h₁ h₂⟩

instance : IsAntisymm String strLe :=
  ⟨fun a b h₁ h₂ => String.ext (lexLe_antisymm a.data b.data h₁ h₂)⟩

/-! ### `dedupAdj` facts -/

theorem dedupAdj_cons₂ {α : Type} [DecidableEq α] (a b : α) (t : List α) :
    dedupAdj (a :: b :: t) = if a = b then dedupAdj (b :: t) else a :: dedupAdj (b :: t) := rfl

theorem dedupAdj_sublist {α : Type} [DecidableEq α] : ∀ l : List α, List.Sublist (dedupAdj l) l
  | [] => by simp [dedupAdj]
  | [a] => by simp [dedupAdj]
  | a :: b :: t => by
      by_cases h : a = b
      · rw [dedupAdj_cons₂, if_pos h]
        exact (dedupAdj_sublist (b :: t)).cons _
      · rw [dedupAdj_cons₂, if_neg h]
        exact (dedupAdj_sublist (b :: t)).cons₂ _

theorem mem_dedupAdj {α : Type} [DecidableEq α] (x : α) :
    ∀ l : List α, x ∈ dedupAdj l ↔ x ∈ l
  | [] => Iff.rfl
  | [a] => Iff.rfl
  | a :: b :: t => by
      by_cases h : a = b
      · subst h
        rw [dedupAdj_cons₂, if_pos rfl, mem_dedupAdj x (a :: t)]
        simp
      · rw [dedupAdj_cons₂, if_neg h, List.mem_cons, List.mem_cons, mem_dedupAdj x (b :: t), List.mem_cons]

theorem dedupAdj_nodup : ∀ l : List String, l.Sorted strLe → (dedupAdj l).Nodup
  | [], _ => by simp [dedupAdj]
  | [a], _ => by simp [dedupAdj]
  | a :: b :: t, h => by
      rw [List.sorted_cons] at h
      by_cases hab : a = b
      · rw [dedupAdj_cons₂, if_pos hab]
        exact dedupAdj_nodup (b :: t) h.2
      · rw [dedupAdj_cons₂, if_neg hab]
        rw [List.nodup_cons]
        refine ⟨?_, dedupAdj_nodup (b :: t) h.2⟩
        intro hmem
        rw [mem_dedupAdj] at hmem
        rcases List.mem_cons.1 hmem with hb | ht
        · exact hab hb
        · have h₁ : strLe a b := h.1 b (List.mem_cons_self _ _)
          have h₂ : strLe b a := List.rel_of_sorted_cons h.2 a ht
          exact hab (antisymm h₁ h₂)

/-! ### `canonPool` facts -/

theorem canonPool_sorted (names : List String) : (canonPool names).Sorted strLe :=
  List.Pairwise.sublist (dedupAdj_sublist _) (List.sorted_insertionSort strLe names)

theorem canonPool_nodup (names : List String) : (canonPool names).Nodup :=
  dedupAdj_nodup _ (List.sorted_insertionSort strLe names)

theorem mem_canonPool {x : String} {names : List String} :
    x ∈ canonPool names ↔ x ∈ names := by
  rw [canonPool, mem_dedupAdj, List.mem_insertionSort]

/-! ### `pickLoop` facts -/

theorem pickLoop_succ_cons (ex : String → Bool) (fuel : Nat) (m : String)
    (ms : List String) (draws : List Nat) :
    pickLoop ex (fuel + 1) (m :: ms) draws =
      if ex ((m :: ms).getD (draws.headD 0 % (m :: ms).length) "") then
        .ok ((m :: ms).getD (draws.headD 0 % (m :: ms).length) "")
      else
        pickLoop ex fuel ((m :: ms).eraseIdx (draws.headD 0 % (m :: ms).length))
          draws.tail := rfl

theorem pickLoopT_succ_cons (ex : String → Bool) (fuel : Nat) (m : String)
    (ms : List String) (draws : List Nat) :
    pickLoopT ex (fuel + 1) (m :: ms) draws =
      if ex ((m :: ms).getD (draws.headD 0 % (m :: ms).length) "") then
        ([(m :: ms).getD (draws.headD 0 % (m :: ms).length) ""],
         .ok ((m :: ms).getD (draws.headD 0 % (m :: ms).length) ""))
      else
        ((m :: ms).getD (draws.headD 0 % (m :: ms).length) "" ::
           (pickLoopT ex fuel ((m :: ms).eraseIdx (draws.headD 0 % (m :: ms).length))
             draws.tail).1,
         (pickLoopT ex fuel ((m :: ms).eraseIdx (draws.headD 0 % (m :: ms).length))
             draws.tail).2) := by
  show (if ex ((m :: ms).getD (draws.headD 0 % (m :: ms).length) "") then _ else _) = _
  split <;> rfl

theorem perm_getElem_cons_eraseIdx {α : Type} [DecidableEq α] (l : List α) (i : Nat)
    (h : i < l.length) : l.Perm (l[i] :: l.eraseIdx i) :=
  (List.perm_cons_erase (List.getElem_mem h)).trans
    (List.Perm.cons _ (List.erase_getElem h))

theorem pickLoop_success (ex : String → Bool) :
    ∀ (fuel : Nat) (imgs : List String) (draws : List Nat),
      imgs.length = fuel → (∃ x ∈ imgs, ex x = true) →
      ∃ img, pickLoop ex fuel imgs draws = .ok img ∧ img ∈ imgs ∧ ex img = true := by
  intro fuel
  induction fuel with
  | zero =>
      intro imgs draws hlen hex
      rw [List.length_eq_zero] at hlen
      subst hlen
      rcases hex with ⟨x, hx, _⟩
      cases hx
  | succ n ih =>
      intro imgs draws hlen hex
      cases imgs with
      | nil => simp at hlen
      | cons m ms =>
          have hpos : 0 < (m :: ms).length := by simp
          have hlt : draws.headD 0 % (m :: ms).length < (m :: ms).length :=
            Nat.mod_lt _ hpos
          have hgetD : (m :: ms).getD (draws.headD 0 % (m :: ms).length) "" =
              (m :: ms)[draws.headD 0 % (m :: ms).length] := by
            rw [List.getD_eq_getElem?_getD, List.getElem?_eq_getElem hlt]
            rfl
          rw [pickLoop_succ_cons]
          by_cases hex0 : ex ((m :: ms).getD (draws.headD 0 % (m :: ms).length) "")
          · rw [if_pos hex0]
            refine ⟨_, rfl, ?_, hex0⟩
            rw [hgetD]
            exact List.getElem_mem hlt
          · rw [if_neg hex0]
            have hlen' : ((m :: ms).eraseIdx (draws.headD 0 % (m :: ms).length)).length = n := by
              rw [List.length_eraseIdx_of_lt hlt]
              omega
            have hex' : ∃ x ∈ (m :: ms).eraseIdx (draws.headD 0 % (m :: ms).length),
                ex x = true := by
              rcases hex with ⟨x, hx, hexx⟩
              have hperm := perm_getElem_cons_eraseIdx (m :: ms) _ hlt
              rcases List.mem_cons.1 (hperm.mem_iff.1 hx) with heq | hmem
              · rw [heq, ← hgetD] at hexx
                exact absurd hexx hex0
              · exact ⟨x, hmem, hexx⟩
            obtain ⟨img, heq, hmem, himg⟩ := ih _ draws.tail hlen' hex'
            exact ⟨img, heq, List.eraseIdx_subset _ _ hmem, himg⟩

theorem pickLoopT_fail (ex : String → Bool) :
    ∀ (fuel : Nat) (imgs : List String) (draws : List Nat),
      imgs.length = fuel → (∀ x ∈ imgs, ex x = false) →
      (pickLoopT ex fuel imgs draws).2 = .error .NoImage ∧
        (pickLoopT ex fuel imgs draws).1.Perm imgs := by
  intro fuel
  induction fuel with
  | zero =>
      intro imgs draws hlen _
      rw [List.length_eq_zero] at hlen
      subst hlen
      exact ⟨rfl, List.Perm.refl _⟩
  | succ n ih =>
      intro imgs draws hlen hall
      cases imgs with
      | nil => simp at hlen
      | cons m ms =>
          have hpos : 0 < (m :: ms).length := by simp
          have hlt : draws.headD 0 % (m :: ms).length < (m :: ms).length :=
            Nat.mod_lt _ hpos
          have hgetD : (m :: ms).getD (draws.headD 0 % (m :: ms).length) "" =
              (m :: ms)[draws.headD 0 % (m :: ms).length] := by
            rw [List.getD_eq_getElem?_getD, List.getElem?_eq_getElem hlt]
            rfl
          have hex0 : ex ((m :: ms).getD (draws.headD 0 % (m :: ms).length) "") = false := by
            rw [hgetD]
            exact hall _ (List.getElem_mem hlt)
          rw [pickLoopT_succ_cons, if_neg (by rw [hex0]; exact Bool.false_ne_true)]
          have hlen' : ((m :: ms).eraseIdx (draws.headD 0 % (m :: ms).length)).length = n := by
            rw [List.length_eraseIdx_of_lt hlt]
            omega
          have hall' : ∀ x ∈ (m :: ms).eraseIdx (draws.headD 0 % (m :: ms).length),
              ex x = false :=
            fun x hx => hall x (List.eraseIdx_subset _ _ hx)
          obtain ⟨hres, hperm⟩ := ih _ draws.tail hlen' hall'
          refine ⟨hres, ?_⟩
          have hperm2 := perm_getElem_cons_eraseIdx (m :: ms) _ hlt
          rw [hgetD]
          exact ((hperm.cons _).trans hperm2.symm)

theorem pickLoopT_snd (ex : String → Bool) :
    ∀ (fuel : Nat) (imgs : List String) (draws : List Nat),
      (pickLoopT ex fuel imgs draws).2 = pickLoop ex fuel imgs draws := by
  intro fuel
  induction fuel with
  | zero => intro imgs draws; rfl
  | succ n ih =>
      intro imgs draws
      cases imgs with
      | nil => rfl
      | cons m ms =>
          rw [pickLoop_succ_cons, pickLoopT_succ_cons]
          split
          · rfl
          · exact ih _ draws.tail

/-- Shared failure fact: when every candidate's existence probe fails,
`pick_image` fails with `NoImage`. -/
theorem pick_image_fail_all {ex : String → Bool} {names : List String} (draws : List Nat)
    (hall : ∀ x ∈ names, ex x = false) :
    pick_image ex draws names = .error .NoImage := by
  have hall' : ∀ x ∈ canonPool names, ex x = false :=
    fun x hx => hall x (mem_canonPool.1 hx)
  have h := pickLoopT_fail ex (canonPool names).length (canonPool names) draws rfl hall'
  rw [pick_image, ← pickLoopT_snd]
  exact h.1



/-! ## Claim theorems -/

theorem filter_map_eq_filterMap {α β : Type} (f : α → β) (p : β → Bool) (l : List α) :
    (l.map f).filter p = l.filterMap (fun x => if p (f x) then some (f x) else none) := by
  induction l with
  | nil => rfl
  | cons a l ih =>
      by_cases h : p (f a) <;>
        simp [List.filter_cons, List.filterMap_cons, h, ih]

/-- **C6.** For every candidate sequence containing at least one path whose
existence probe succeeds, `pick_image` succeeds, and the returned path is
an element of the original input sequence whose existence probe succeeded
at the time of the call. -/
theorem pick_image_returns_valid_member (ex : String → Bool) (draws : List Nat)
    (names : List String) (h : ∃ x ∈ names, ex x = true) :
    ∃ img, pick_image ex draws names = .ok img ∧ img ∈ names ∧ ex img = true := by
  rcases h with ⟨x, hx, hex⟩
  obtain ⟨img, heq, hmem, himg⟩ :=
    pickLoop_success ex (canonPool names).length (canonPool names) draws rfl
      ⟨x, mem_canonPool.2 hx, hex⟩
  exact ⟨img, heq, mem_canonPool.1 hmem, himg⟩

theorem pick_image_returns_valid_member_witness :
    ∃ img, pick_image (fun s => s == "/tmp/x.jpg") [0] ["", "/tmp/x.jpg"] = .ok img ∧
      img ∈ ["", "/tmp/x.jpg"] ∧ (fun s => s == "/tmp/x.jpg") img = true :=
  pick_image_returns_valid_member _ [0] _ ⟨"/tmp/x.jpg", by decide, by decide⟩

/-- **C7.** For every candidate sequence in which no element's existence
probe succeeds, `pick_image` terminates with `NoImage` having probed each
distinct candidate exactly once: the probed list is duplicate-free and
covers exactly the members of the input. -/
theorem pick_image_exhaustion (ex : String → Bool) (draws : List Nat)
    (names : List String) (h : ∀ x ∈ names, ex x = false) :
    pick_image ex draws names = .error .NoImage ∧
      (pickProbes ex draws names).Nodup ∧
      ∀ x, x ∈ pickProbes ex draws names ↔ x ∈ names := by
  have hall : ∀ x ∈ canonPool names, ex x = false :=
    fun x hx => h x (mem_canonPool.1 hx)
  have ht := pickLoopT_fail ex (canonPool names).length (canonPool names) draws rfl hall
  refine ⟨pick_image_fail_all draws h, ?_, ?_⟩
  · exact ht.2.symm.nodup (canonPool_nodup names)
  · intro x
    rw [pickProbes, ht.2.mem_iff, mem_canonPool]

theorem pick_image_exhaustion_witness :
    pick_image (fun _ => false) [1] ["b", "a", "b"] = .error .NoImage ∧
      (pickProbes (fun _ => false) [1] ["b", "a", "b"]).Nodup ∧
      ∀ x, x ∈ pickProbes (fun _ => false) [1] ["b", "a", "b"] ↔ x ∈ ["b", "a", "b"] :=
  pick_image_exhaustion _ [1] _ (by decide)

/-- **C8.** `get_image_names` splits the text into lines, trims each line,
drops exactly the lines whose trimmed form starts with `#`, and keeps every
other trimmed line (including empty ones) in original order; on the lines
`["# comment", "", "/tmp/x.jpg"]` it yields `["", "/tmp/x.jpg"]`. -/
theorem get_image_names_spec :
    (∀ contents : String, get_image_names contents =
        (rustLines contents).filterMap (fun line =>
          if startsHash (rustTrim line) then none else some (rustTrim line))) ∧
      get_image_names "# comment\n\n/tmp/x.jpg" = ["", "/tmp/x.jpg"] := by
  constructor
  · intro contents
    rw [get_image_names, filter_map_eq_filterMap]
    congr 1
    funext line
    by_cases h : startsHash (rustTrim line) <;> simp [h]
  · decide

/-- **C2 (counterexample).** The claim says a wrongly-typed
single-workspace-mode value defaults the snapshot to `Single(0)` with the
resolve succeeding; in fact a successful `GetProperty` call carrying a
non-boolean value makes `refresh_single_workspace_info` fail with
`NoData`. -/
theorem refresh_single_wrong_type_counterexample :
    refresh_single_workspace_info (.ok (some (.VInt64 5))) (.ok (some (.VInt64 3))) =
        .error .NoData ∧
      refresh_single_workspace_info (.ok (some (.VInt64 5))) (.ok (some (.VInt64 3))) ≠
        .ok ⟨true, 0⟩ := by
  decide

/-- **C2 (amended).** If either `GetProperty` *call* fails (property
absent / transport error), the resolver defaults to `Single(0)`
(`single_mode = true`, `single_workspace = 0`) and the resolve succeeds.
If both calls succeed, the mode value must be exactly a boolean (strict
`cast::<bool>`) and the number value convertible by the lenient `as_i64`
(integer-typed or boolean, a boolean reading as 0/1): a missing value, a
non-boolean mode, or a number value that is neither integer-typed nor
boolean makes the resolve fail with `NoData` rather than defaulting;
otherwise the fetched values are used, with a negative number clamped
to 0. -/
theorem refresh_single_workspace_info_spec :
    (∀ m_sws_mode m_sws_num : Except XFConfError (Option DVal),
        ((∃ e, m_sws_mode = .error e) ∨ (∃ e, m_sws_num = .error e)) →
        refresh_single_workspace_info m_sws_mode m_sws_num = .ok ⟨true, 0⟩) ∧
    (∀ (b : Bool) (n : Int),
        refresh_single_workspace_info (.ok (some (.VBool b))) (.ok (some (.VInt64 n))) =
          .ok ⟨b, if n < 0 then 0 else n.toNat⟩) ∧
    (∀ b c : Bool,
        refresh_single_workspace_info (.ok (some (.VBool b))) (.ok (some (.VBool c))) =
          .ok ⟨b, if c then 1 else 0⟩) ∧
    (∀ v_mode v_num : DVal, (castBool v_mode = none ∨ asI64 v_num = none) →
        refresh_single_workspace_info (.ok (some v_mode)) (.ok (some v_num)) =
          .error .NoData) ∧
    (∀ v : Option DVal,
        refresh_single_workspace_info (.ok none) (.ok v) = .error .NoData) ∧
    (∀ v_mode : DVal,
        refresh_single_workspace_info (.ok (some v_mode)) (.ok none) = .error .NoData) := by
  refine ⟨?_, ?_, ?_, ?_, ?_, ?_⟩
  · intro mres nres h
    rcases h with ⟨e, he⟩ | ⟨e, he⟩ <;> subst he
    · cases nres <;> rfl
    · cases mres <;> rfl
  · intro b n
    rfl
  · intro b c
    cases c <;> rfl
  · intro mv nv h
    rcases h with h | h
    · cases mv <;> first | rfl | simp [castBool] at h
    · cases mv <;> cases nv <;> first | rfl | simp [asI64] at h
  · intro v
    rfl
  · intro mv
    rfl

theorem refresh_single_workspace_info_spec_witness :
    refresh_single_workspace_info (.error .DBusError) (.ok (some (.VBool false))) =
        .ok ⟨true, 0⟩ ∧
      refresh_single_workspace_info (.ok (some (.VBool false))) (.ok (some (.VInt64 (-2)))) =
        .ok ⟨false, 0⟩ ∧
      refresh_single_workspace_info (.ok (some (.VBool true))) (.ok (some (.VBool true))) =
        .ok ⟨true, 1⟩ ∧
      refresh_single_workspace_info (.ok (some (.VString "x"))) (.ok (some (.VInt64 1))) =
        .error .NoData :=
  ⟨refresh_single_workspace_info_spec.1 _ _ (Or.inl ⟨.DBusError, rfl⟩),
   by simpa using refresh_single_workspace_info_spec.2.1 false (-2),
   by simpa using refresh_single_workspace_info_spec.2.2.1 true true,
   refresh_single_workspace_info_spec.2.2.2.1 _ _ (Or.inl rfl)⟩

/-- **C9.** `set_list` fails with `NoImage` whenever the supplied list
file contains no currently-valid image, and on any failure — stat failure,
unreadable file, or no valid image — the list-path property write is not
issued (a write is issued only when every validation step succeeded). -/
theorem set_list_validation_spec :
    (∀ (contents : Except XFConfError String) (ex : String → Bool) (draws : List Nat)
        (wres : Except XFConfError Unit) (lst text : String),
        contents = .ok text → (∀ x ∈ get_image_names text, ex x = false) →
        set_list true contents ex draws wres lst = ([], .error .NoImage)) ∧
    (∀ (md : Bool) (contents : Except XFConfError String) (ex : String → Bool)
        (draws : List Nat) (wres : Except XFConfError Unit) (lst : String),
        (set_list md contents ex draws wres lst).1 ≠ [] →
        md = true ∧ ∃ text, contents = .ok text ∧
          ∃ img, pick_image ex draws (get_image_names text) = .ok img) ∧
    (∀ (ex : String → Bool) (draws : List Nat) (wres : Except XFConfError Unit)
        (lst : String) (e : XFConfError) (contents : Except XFConfError String),
        contents = .error e → set_list true contents ex draws wres lst = ([], .error e)) := by
  refine ⟨?_, ?_, ?_⟩
  · intro contents ex draws wres lst text hc hall
    subst hc
    simp [set_list, pick_image_fail_all draws hall]
  · intro md contents ex draws wres lst hne
    cases md with
    | false => simp [set_list] at hne
    | true =>
        cases contents with
        | error e => simp [set_list] at hne
        | ok text =>
            refine ⟨rfl, text, rfl, ?_⟩
            cases hpick : pick_image ex draws (get_image_names text) with
            | error e => simp [set_list, hpick] at hne
            | ok img => exact ⟨img, rfl⟩
  · intro ex draws wres lst e contents hc
    subst hc
    rfl

theorem set_list_validation_spec_witness :
    set_list true (.ok "/tmp/x.jpg") (fun _ => false) [] (.ok ()) "/tmp/list" =
      ([], .error .NoImage) :=
  set_list_validation_spec.1 _ _ [] _ _ "/tmp/x.jpg" rfl (by decide)

/-- **C10.** With the mode-flag write succeeding: an explicit workspace
index outside `[0, workspace_count)` still writes the
single-workspace-mode boolean but issues no single-workspace-number write
(that property is left unchanged); an in-range index writes both
properties. -/
theorem set_backdrop_mode_writes_spec :
    (∀ (numWriteRes : Except XFConfError Unit) (workspace_count : Nat) (mode : Bool)
        (n : Int), (n < 0 ∨ (workspace_count : Int) ≤ n) →
        do_set_backdrop_mode (.ok ()) numWriteRes workspace_count mode (some n) =
          ([(XFCONF_SINGLE_WORKSPACE_MODE, .VBool mode)], .ok ())) ∧
    (∀ (numWriteRes : Except XFConfError Unit) (workspace_count : Nat) (mode : Bool)
        (n : Int), ¬(n < 0 ∨ (workspace_count : Int) ≤ n) →
        do_set_backdrop_mode (.ok ()) numWriteRes workspace_count mode (some n) =
          ([(XFCONF_SINGLE_WORKSPACE_MODE, .VBool mode),
            (XFCONF_SINGLE_WORKSPACE_NUMBER, .VInt64 n)], numWriteRes)) := by
  constructor
  · intro nres wc mode n h
    simp [do_set_backdrop_mode, set_single_workspace_info, if_pos h]
  · intro nres wc mode n h
    simp [do_set_backdrop_mode, set_single_workspace_info, if_neg h]

theorem set_backdrop_mode_writes_spec_witness :
    do_set_backdrop_mode (.ok ()) (.ok ()) 2 true (some 5) =
        ([(XFCONF_SINGLE_WORKSPACE_MODE, .VBool true)], .ok ()) ∧
      do_set_backdrop_mode (.ok ()) (.ok ()) 2 true (some 1) =
        ([(XFCONF_SINGLE_WORKSPACE_MODE, .VBool true),
          (XFCONF_SINGLE_WORKSPACE_NUMBER, .VInt64 1)], .ok ()) :=
  ⟨set_backdrop_mode_writes_spec.1 _ 2 true 5 (by decide),
   set_backdrop_mode_writes_spec.2 _ 2 true 1 (by decide)⟩



/-! ### Rotation fail-fast lemmas (C1) -/

theorem rotate_backgroundAux_all_ok (ex : String → Bool) (rngs : Nat → List Nat)
    (setbg : String → String → String → Except XFConfError Unit)
    (wsp : String) (pool : List String) :
    ∀ (ms : List String) (s : Nat),
      (∀ j (hj : j < ms.length), slotResM ex rngs setbg wsp pool (ms.get ⟨j, hj⟩) (s + j) = .ok ()) →
      rotate_backgroundAux ex rngs setbg wsp pool ms s = (ms, .ok ()) := by
  intro ms
  induction ms with
  | nil => intro s _; rfl
  | cons m rest ih =>
      intro s h
      have h0 := h 0 (by simp)
      simp only [List.get, Nat.add_zero] at h0
      cases hp : pick_image ex (rngs s) pool with
      | error e => simp [slotResM, hp] at h0
      | ok img =>
          simp only [slotResM, hp] at h0
          cases hs : setbg m wsp img with
          | error e => simp [hs] at h0
          | ok u =>
              have ihr := ih (s + 1) (fun j hj => by
                have := h (j + 1) (by simpa using Nat.succ_lt_succ hj)
                simpa [Nat.add_assoc, Nat.add_comm 1 j] using this)
              simp only [rotate_backgroundAux, hp, hs, ihr]

theorem rotate_backgroundAux_first_fail (ex : String → Bool) (rngs : Nat → List Nat)
    (setbg : String → String → String → Except XFConfError Unit)
    (wsp : String) (pool : List String) :
    ∀ (ms : List String) (s k : Nat) (hk : k < ms.length) (e : XFConfError),
      (∀ j (hj : j < k), slotResM ex rngs setbg wsp pool (ms.get ⟨j, Nat.lt_trans hj hk⟩) (s + j) = .ok ()) →
      slotResM ex rngs setbg wsp pool (ms.get ⟨k, hk⟩) (s + k) = .error e →
      rotate_backgroundAux ex rngs setbg wsp pool ms s = (ms.take (k + 1), .error e) := by
  intro ms
  induction ms with
  | nil => intro s k hk; cases hk
  | cons m rest ih =>
      intro s k hk e hpre hfail
      cases k with
      | zero =>
          simp only [List.get, Nat.add_zero] at hfail
          cases hp : pick_image ex (rngs s) pool with
          | error e₀ =>
              simp only [slotResM, hp] at hfail
              cases hfail
              simp [rotate_backgroundAux, hp]
          | ok img =>
              simp only [slotResM, hp] at hfail
              simp [rotate_backgroundAux, hp, hfail]
      | succ k₀ =>
          have h0 := hpre 0 (Nat.succ_pos _)
          simp only [List.get, Nat.add_zero] at h0
          cases hp : pick_image ex (rngs s) pool with
          | error e₀ => simp [slotResM, hp] at h0
          | ok img =>
              simp only [slotResM, hp] at h0
              cases hs : setbg m wsp img with
              | error e₀ => simp [hs] at h0
              | ok u =>
                  have hk₀ : k₀ < rest.length := Nat.lt_of_succ_lt_succ hk
                  have ihr := ih (s + 1) k₀ hk₀ e (fun j hj => by
                      have := hpre (j + 1) (Nat.succ_lt_succ hj)
                      simpa [Nat.add_assoc, Nat.add_comm 1 j] using this)
                    (by
                      have := hfail
                      simpa [Nat.add_assoc, Nat.add_comm 1 k₀] using this)
                  simp only [rotate_backgroundAux, hp, hs, ihr, List.take_succ_cons]

/-- **C1 (counterexample).** With two monitors and an empty pool, the
selector fails on the first slot and the second monitor's slot is never
attempted: a per-slot failure does abort the remaining slots. -/
theorem rotate_continue_on_error_counterexample :
    rotate_background (fun _ => false) (fun _ => []) (fun _ _ _ => .ok ())
        ["A", "B"] "0" [] = (["A"], .error .NoImage) ∧
      "B" ∉ (rotate_background (fun _ => false) (fun _ => []) (fun _ _ _ => .ok ())
        ["A", "B"] "0" []).1 := by
  decide

/-- **C1 (amended).** During a pool-sampled rotation a per-slot failure
(selector failure or configuration-service write failure) aborts the run:
when every slot succeeds all monitors are processed; when slot `k` is the
first to fail, the slots before it are processed, slot `k` is the last one
attempted, the slots after it are not attempted, and the error propagates.
In `rotate_from_saved`, a workspace whose `rotate_background` fails
likewise stops the remaining workspaces from being attempted. -/
theorem rotate_per_slot_failure_aborts :
    (∀ (ex : String → Bool) (rngs : Nat → List Nat)
        (setbg : String → String → String → Except XFConfError Unit)
        (wsp : String) (pool : List String) (monitors : List String),
        (∀ k (hk : k < monitors.length),
          slotResM ex rngs setbg wsp pool (monitors.get ⟨k, hk⟩) k = .ok ()) →
        rotate_background ex rngs setbg monitors wsp pool = (monitors, .ok ())) ∧
    (∀ (ex : String → Bool) (rngs : Nat → List Nat)
        (setbg : String → String → String → Except XFConfError Unit)
        (wsp : String) (pool : List String) (monitors : List String)
        (k : Nat) (hk : k < monitors.length) (e : XFConfError),
        (∀ j (hj : j < k),
          slotResM ex rngs setbg wsp pool (monitors.get ⟨j, Nat.lt_trans hj hk⟩) j = .ok ()) →
        slotResM ex rngs setbg wsp pool (monitors.get ⟨k, hk⟩) k = .error e →
        rotate_background ex rngs setbg monitors wsp pool =
          (monitors.take (k + 1), .error e)) ∧
    (∀ (ex : String → Bool) (rngss : Nat → Nat → List Nat)
        (setbg : String → String → String → Except XFConfError Unit)
        (monitors pool : List String) (w : String) (ws : List String) (e : XFConfError),
        (rotate_background ex (rngss 0) setbg monitors w pool).2 = .error e →
        rotate_from_savedAux ex rngss setbg monitors pool (w :: ws) 0 =
          ((rotate_background ex (rngss 0) setbg monitors w pool).1.map (fun m => (m, w)),
           .error e)) := by
  refine ⟨?_, ?_, ?_⟩
  · intro ex rngs setbg wsp pool monitors h
    exact rotate_backgroundAux_all_ok ex rngs setbg wsp pool monitors 0
      (fun j hj => by simpa using h j hj)
  · intro ex rngs setbg wsp pool monitors k hk e hpre hfail
    exact rotate_backgroundAux_first_fail ex rngs setbg wsp pool monitors 0 k hk e
      (fun j hj => by simpa using hpre j hj) (by simpa using hfail)
  · intro ex rngss setbg monitors pool w ws e h
    rcases hr : rotate_backgroundAux ex (rngss 0) setbg w pool monitors 0 with ⟨tr, res⟩
    rw [rotate_background, hr] at h
    simp only at h
    subst h
    simp only [rotate_from_savedAux, rotate_background, hr]

theorem rotate_per_slot_failure_aborts_witness :
    rotate_background (fun _ => true) (fun _ => [0]) (fun _ _ _ => .error .DBusError)
        ["A", "B"] "0" ["x"] = (["A", "B"].take 1, .error .DBusError) :=
  rotate_per_slot_failure_aborts.2.1 (fun _ => true) (fun _ => [0])
    (fun _ _ _ => .error .DBusError) "0" ["x"] ["A", "B"] 0 (by decide) .DBusError
    (fun j hj => absurd hj (Nat.not_lt_zero j)) (by decide)



/-! ### Positional pairing lemmas (C4, C5) -/

theorem zip_filter_eq_range_filterMap {α β : Type} (p : α → Bool) (d₁ : α) (d₂ : β) :
    ∀ (l₁ : List α) (l₂ : List β),
      (l₁.zip l₂).filter (fun x => p x.1) =
        (List.range (min l₁.length l₂.length)).filterMap (fun i =>
          if p (l₁.getD i d₁) then some (l₁.getD i d₁, l₂.getD i d₂) else none)
  | [], l₂ => by simp
  | a :: as, [] => by simp
  | a :: as, b :: bs => by
      have hmin : min (a :: as).length (b :: bs).length = min as.length bs.length + 1 := by
        simp [Nat.succ_min_succ]
      rw [List.zip_cons_cons, List.filter_cons, hmin, List.range_succ_eq_map,
        List.filterMap_cons, List.filterMap_map]
      have hcomp :
          ((fun i => if p ((a :: as).getD i d₁) then
              some ((a :: as).getD i d₁, (b :: bs).getD i d₂) else none) ∘ Nat.succ) =
            (fun i => if p (as.getD i d₁) then some (as.getD i d₁, bs.getD i d₂) else none) := by
        funext i
        simp [Function.comp]
      rw [hcomp, ← zip_filter_eq_range_filterMap p d₁ d₂ as bs]
      by_cases h : p a <;> simp [h]

theorem enum_map_filter_eq_range_filterMap {α β : Type} (p : α → Bool) (d : β) :
    ∀ (f : Nat → α) (l : List β),
      ((l.enum.map (fun q => (f q.1, q.2))).filter (fun q => p q.1)) =
        (List.range l.length).filterMap (fun i =>
          if p (f i) then some (f i, l.getD i d) else none)
  | _, [] => by simp
  | f, b :: l => by
      rw [List.enum_cons', List.map_cons, List.map_map, List.filter_cons,
        List.length_cons, List.range_succ_eq_map, List.filterMap_cons, List.filterMap_map]
      have hcomp₁ :
          ((fun q : Nat × β => (f q.1, q.2)) ∘ Prod.map (· + 1) id) =
            (fun q : Nat × β => ((f ∘ Nat.succ) q.1, q.2)) := by
        funext q
        simp [Function.comp, Prod.map]
      have hcomp₂ :
          ((fun i => if p (f i) then some (f i, (b :: l).getD i d) else none) ∘ Nat.succ) =
            (fun i => if p ((f ∘ Nat.succ) i) then
              some ((f ∘ Nat.succ) i, l.getD i d) else none) := by
        funext i
        simp [Function.comp]
      rw [hcomp₁, hcomp₂, ← enum_map_filter_eq_range_filterMap p d (f ∘ Nat.succ) l]
      by_cases h : p (f 0) <;> simp [h]

/-- **C4.** Explicit assignment without repeat: token `i` targets slot `i`
of the canonical monitor-major, workspace-minor order for
`i < min(#tokens, #slots)`; pairs with empty tokens are dropped (the slot
position is consumed but unwritten); slots beyond the token count get no
pair; and on tokens `"a.jpg::b.jpg:"` against the 2×2 topology exactly
`(A,0)↦a.jpg` and `(B,0)↦b.jpg` are emitted. -/
theorem do_setimg_positional_spec :
    (∀ (monitors : List String) (workspace_count : Nat) (collated : String),
        do_setimg_pairs monitors workspace_count collated false =
          (List.range (min (splitColon collated).length
              (all_workspaces monitors workspace_count).length)).filterMap (fun i =>
            if (splitColon collated).getD i "" == "" then none
            else some ((splitColon collated).getD i "",
              (all_workspaces monitors workspace_count).getD i ("", "")))) ∧
      do_setimg_pairs ["A", "B"] 2 "a.jpg::b.jpg:" false =
        [("a.jpg", ("A", "0")), ("b.jpg", ("B", "0"))] := by
  constructor
  · intro monitors wc collated
    show ((splitColon collated).zip (all_workspaces monitors wc)).filter _ = _
    rw [zip_filter_eq_range_filterMap (fun t => !(t == "")) "" ("", "")]
    congr 1
    funext i
    by_cases h : (splitColon collated).getD i "" == "" <;> simp [h]
  · decide

/-- **C5.** Explicit assignment with repeat: the token sequence is cyclic,
slot `i` of the canonical order receives token `i mod #tokens` (empty
tokens still leaving their slot unwritten); on tokens `a.jpg:b.jpg`
against the 2×2 topology all four slots are written alternately. -/
theorem do_setimg_repeat_spec :
    (∀ (monitors : List String) (workspace_count : Nat) (collated : String),
        do_setimg_pairs monitors workspace_count collated true =
          (List.range (all_workspaces monitors workspace_count).length).filterMap (fun i =>
            if (splitColon collated).getD (i % (splitColon collated).length) "" == "" then none
            else some ((splitColon collated).getD (i % (splitColon collated).length) "",
              (all_workspaces monitors workspace_count).getD i ("", "")))) ∧
      do_setimg_pairs ["A", "B"] 2 "a.jpg:b.jpg" true =
        [("a.jpg", ("A", "0")), ("b.jpg", ("A", "1")),
         ("a.jpg", ("B", "0")), ("b.jpg", ("B", "1"))] := by
  constructor
  · intro monitors wc collated
    show ((all_workspaces monitors wc).enum.map _).filter _ = _
    rw [enum_map_filter_eq_range_filterMap (fun t => !(t == "")) ("", "")
      (fun i => (splitColon collated).getD (i % (splitColon collated).length) "")]
    congr 1
    funext i
    by_cases h : (splitColon collated).getD (i % (splitColon collated).length) "" == "" <;>
      simp [h]
  · decide

/-- **C3.** Topology resolution: the monitor sequence scraped from the
property keys is sorted and duplicate-free; the result is invariant under
permutation of the property set (deterministic despite hash-order
iteration); `NoDesktopInfo` is returned exactly when the sequence is
empty; otherwise the snapshot holds that sequence together with the count
of keys matching the last-image pattern for the first monitor in sort
order; and the 2-monitor, 2-workspace example resolves to
`(["A", "B"], 2)`. -/
theorem refresh_monitors_and_workspaces_spec :
    (∀ prop_keys : List String,
        (monsSetOf prop_keys).Sorted strLe ∧ (monsSetOf prop_keys).Nodup) ∧
    (∀ keys₁ keys₂ : List String, keys₁.Perm keys₂ →
        refresh_monitors_and_workspaces keys₁ = refresh_monitors_and_workspaces keys₂) ∧
    (∀ prop_keys : List String,
        refresh_monitors_and_workspaces prop_keys = .error .NoDesktopInfo ↔
          monsSetOf prop_keys = []) ∧
    (∀ prop_keys : List String, monsSetOf prop_keys ≠ [] →
        refresh_monitors_and_workspaces prop_keys =
          .ok (monsSetOf prop_keys,
            (prop_keys.filter (wsCountMatch ((monsSetOf prop_keys).headD ""))).length)) ∧
    refresh_monitors_and_workspaces
      ["/backdrop/screen0/monitorA/workspace0/color-style",
       "/backdrop/screen0/monitorA/workspace1/color-style",
       "/backdrop/screen0/monitorB/workspace0/color-style",
       "/backdrop/screen0/monitorB/workspace1/color-style",
       "/backdrop/screen0/monitorA/workspace0/last-image",
       "/backdrop/screen0/monitorA/workspace1/last-image",
       "/backdrop/screen0/monitorB/workspace0/last-image",
       "/backdrop/screen0/monitorB/workspace1/last-image"] = .ok (["A", "B"], 2) := by
  refine ⟨?_, ?_, ?_, ?_, ?_⟩
  · intro prop_keys
    exact ⟨List.Pairwise.sublist (dedupAdj_sublist _) (List.sorted_insertionSort strLe _),
      dedupAdj_nodup _ (List.sorted_insertionSort strLe _)⟩
  · intro keys₁ keys₂ hp
    have hsort : List.insertionSort strLe (keys₁.filterMap capMonitor) =
        List.insertionSort strLe (keys₂.filterMap capMonitor) :=
      List.eq_of_perm_of_sorted
        ((List.perm_insertionSort _ _).trans ((hp.filterMap _).trans
          (List.perm_insertionSort _ _).symm))
        (List.sorted_insertionSort _ _) (List.sorted_insertionSort _ _)
    have hm : monsSetOf keys₁ = monsSetOf keys₂ := by
      rw [monsSetOf, monsSetOf, hsort]
    have hw : (keys₁.filter (wsCountMatch ((monsSetOf keys₂).headD ""))).length =
        (keys₂.filter (wsCountMatch ((monsSetOf keys₂).headD ""))).length :=
      (hp.filter _).length_eq
    rw [refresh_monitors_and_workspaces, refresh_monitors_and_workspaces, hm, hw]
  · intro prop_keys
    rw [refresh_monitors_and_workspaces]
    by_cases h : monsSetOf prop_keys = []
    · simp [h]
    · have : ¬ (monsSetOf prop_keys).length ≤ 0 := by
        simpa [Nat.le_zero, List.length_eq_zero] using h
      simp [this, h]
  · intro prop_keys h
    have : ¬ (monsSetOf prop_keys).length ≤ 0 := by
      simpa [Nat.le_zero, List.length_eq_zero] using h
    rw [refresh_monitors_and_workspaces]
    simp [this]
  · decide



theorem refresh_monitors_and_workspaces_spec_witness :
    refresh_monitors_and_workspaces
        ["/backdrop/screen0/monitorB/workspace0/color-style",
         "/backdrop/screen0/monitorA/workspace0/color-style"] =
      refresh_monitors_and_workspaces
        ["/backdrop/screen0/monitorA/workspace0/color-style",
         "/backdrop/screen0/monitorB/workspace0/color-style"] ∧
    refresh_monitors_and_workspaces ["/backdrop/screen0/monitorA/workspace0/color-style"] =
      .ok (monsSetOf ["/backdrop/screen0/monitorA/workspace0/color-style"],
        (List.filter
          (wsCountMatch ((monsSetOf
            ["/backdrop/screen0/monitorA/workspace0/color-style"]).headD ""))
          ["/backdrop/screen0/monitorA/workspace0/color-style"]).length) :=
  ⟨refresh_monitors_and_workspaces_spec.2.1 _ _
      (List.Perm.swap "/backdrop/screen0/monitorA/workspace0/color-style"
        "/backdrop/screen0/monitorB/workspace0/color-style" []),
   refresh_monitors_and_workspaces_spec.2.2.2.1 _ (by decide)⟩


end XfceSetBg
